import Mathlib

/-!
Shallow embedding of the checkpoint persistence layer of `lingvo/jax`
(`checkpoints.py` and the polling evaluation loops of `eval.py`), together
with theorems settling the specification claims about it.

Conventions:
* Python strings are Lean `String`s; a directory listing is a `List String`
  of entries (dir names without the base-path part, as `tf.io.gfile.listdir`
  returns them).
* Machine integers are `Nat` (Python `int` is unbounded, steps are
  non-negative here).
* Filesystem state is passed explicitly; functions on it return the new
  state (or a result value), never mutate.
* Python `re` patterns are hand-compiled to executable `Bool` matchers that
  recognise exactly the same language (over the names that can occur here;
  Python's `\d` additionally accepts non-ASCII Unicode digits and `$` accepts
  one trailing newline, neither of which can occur in these directory names).
-/

namespace LingvoJax

/-! ### Decimal digit strings (Python zero-padded integer formatting) -/

/-- Character for the decimal digit `d` (`'0'`–`'9'` for `d < 10`). -/
def digitChar (d : Nat) : Char := Char.ofNat (48 + d)

/-- Decimal digits of `n`, most significant first, accumulated into `acc`.
The explicit fuel makes the definition structurally recursive (so that the
kernel can evaluate it); `fuel = n + 1` always suffices since `n / 10 < n`. -/
def natDigitsAux : Nat → Nat → List Char → List Char
  | 0, _, acc => acc
  | fuel + 1, n, acc =>
    if n < 10 then digitChar n :: acc
    else natDigitsAux fuel (n / 10) (digitChar (n % 10) :: acc)

/-- Decimal representation of `n`, most significant digit first. -/
def natDecDigits (n : Nat) : List Char := natDigitsAux (n + 1) n []

/-- Python format `{n:08}`: the decimal digits of `n`, left-padded with `'0'`
to at least eight characters (all digits are kept when there are more). -/
def pyFormat08 (n : Nat) : List Char :=
  List.replicate (8 - (natDecDigits n).length) '0' ++ natDecDigits n

/-- Value of a digit string, as Python `int()` computes it on an all-digit
string (the only way the code applies it). -/
def parseDigits (l : List Char) : Nat := l.foldl (fun a c => a * 10 + (c.toNat - 48)) 0

/-! ### Path/naming module (`checkpoints.py`, lines 36–66) -/

def _CHECKPOINT_DIR_PREFIX : String := "checkpoint_"

def _TMP_DIR_KEYWORD : String := ".tmp"

/-- Model of `os.path.join(a, b)` for a relative component `b`. -/
def pathJoin (a b : String) : String := a ++ "/" ++ b

/-- Strips the literal `pat` from the front of `l`, returning the remainder,
or `none` when `pat` is not a prefix of `l`. -/
def stripLit : List Char → List Char → Option (List Char)
  | [], l => some l
  | _ :: _, [] => none
  | p :: ps, c :: cs => if c = p then stripLit ps cs else none

/-- Backtracking matcher for the regex fragment `[\d]+` followed by whatever
`k` accepts: succeeds iff some split `l = ds ++ rest` with `ds` a nonempty
run of digits has `k rest = true`. -/
def digitsThen (k : List Char → Bool) : List Char → Bool
  | [] => false
  | c :: rest => c.isDigit && (k rest || digitsThen k rest)

/-- Matcher for the tail `.tmp_[\d]+$` of `TMP_CHECKPOINT_SUBDIR_RE`.  The
dot in the source pattern is unescaped, so it matches any single character,
after which the literal `tmp_` and a nonempty digit run must end the name. -/
def tmpRegexTail : List Char → Bool
  | [] => false
  | _ :: rest =>
    match stripLit "tmp_".data rest with
    | none => false
    | some ds => !ds.isEmpty && ds.all Char.isDigit

/-- `_is_checkpoint_dir`: `re.match` of `CHECKPOINT_SUBDIR_RE = checkpoint_[\d]+$`. -/
def is_checkpoint_dir (x : String) : Bool :=
  match stripLit _CHECKPOINT_DIR_PREFIX.data x.data with
  | none => false
  | some rest => !rest.isEmpty && rest.all Char.isDigit

/-- `_is_tmp_checkpoint_dir`: `re.match` of
`TMP_CHECKPOINT_SUBDIR_RE = checkpoint_[\d]+.tmp_[\d]+$`. -/
def is_tmp_checkpoint_dir (x : String) : Bool :=
  match stripLit _CHECKPOINT_DIR_PREFIX.data x.data with
  | none => false
  | some rest => digitsThen tmpRegexTail rest

/-- Name part of `_make_checkpoint_step_dir`: `f'checkpoint_{step:08}'`. -/
def checkpoint_step_dirname (step : Nat) : String :=
  _CHECKPOINT_DIR_PREFIX ++ String.mk (pyFormat08 step)

/-- `_make_checkpoint_step_dir`. -/
def make_checkpoint_step_dir (checkpoint_dir : String) (step : Nat) : String :=
  pathJoin checkpoint_dir (checkpoint_step_dirname step)

/-- Name part of `_make_tmp_checkpoint_dir`: `f'checkpoint_{step:08}.tmp'`. -/
def tmp_checkpoint_dirname (step : Nat) : String :=
  checkpoint_step_dirname step ++ _TMP_DIR_KEYWORD

/-- `_make_tmp_checkpoint_dir`. -/
def make_tmp_checkpoint_dir (checkpoint_dir : String) (step : Nat) : String :=
  pathJoin checkpoint_dir (tmp_checkpoint_dirname step)

/-- First index at which the literal `pat` occurs in `l` (Python `str.find`),
or `none` when it does not occur. -/
def findSubIdx (pat : List Char) : List Char → Option Nat
  | [] => if pat.isEmpty then some 0 else none
  | c :: cs =>
    if pat.isPrefixOf (c :: cs) then some 0
    else (findSubIdx pat cs).map (· + 1)

/-- `_get_step_from_checkpoint_dirname`: parses the digit run between the
`checkpoint_` front matter and (when present) the first `.tmp` occurrence. -/
def get_step_from_checkpoint_dirname (checkpoint_dir : String) : Nat :=
  match findSubIdx _TMP_DIR_KEYWORD.data checkpoint_dir.data with
  | some start_of_tmp =>
    parseDigits ((checkpoint_dir.data.take start_of_tmp).drop _CHECKPOINT_DIR_PREFIX.length)
  | none => parseDigits (checkpoint_dir.data.drop _CHECKPOINT_DIR_PREFIX.length)

/-! ### Directory listings and sorting (`sorted(...)` on Python strings) -/

/-- Python string order: lexicographic by code point.  Stated on the
underlying character lists so that the kernel can evaluate comparisons. -/
def pyStrLe (a b : String) : Prop := a.data ≤ b.data

instance : DecidableRel pyStrLe := fun a b => inferInstanceAs (Decidable (a.data ≤ b.data))

instance : IsTrans String pyStrLe :=
  ⟨fun _ _ _ h1 h2 => le_trans (h1 : _ ≤ _) h2⟩

instance : IsTotal String pyStrLe := ⟨fun a b => le_total a.data b.data⟩

/-- Python `sorted(...)` on a list of strings (code-point lexicographic). -/
def sortedStrings (l : List String) : List String := List.insertionSort pyStrLe l

/-- Filesystem view used by the checkpoint manager: maps a full directory
path to `none` when the directory does not exist, else `some entries` with
its `tf.io.gfile.listdir` listing (entry names, not full paths). -/
def Fs : Type := String → Option (List String)

/-! ### GDA restore (`_restore_checkpoint_gda`, lines 381–419) -/

inductive RestoreResult where
  | returnedInput
  | notFound (dir : String)
  | restored (step : Nat)
deriving DecidableEq

/-- `_restore_checkpoint_gda` up to the point where the actual tensor reads
start; a run that reaches the reads is abstracted as `.restored step`
(`.notFound d` is `FileNotFoundError` for `d`; `.returnedInput` is the early
`return train_state`). -/
def restore_checkpoint_gda (fs : Fs) (checkpoint_dir : String)
    (step : Option Nat) : RestoreResult :=
  match fs checkpoint_dir with
  | none => .returnedInput
  | some listing =>
    if listing.isEmpty then .returnedInput
    else
      match step with
      | none =>
        let sorted_dirnames := sortedStrings (listing.filter
          (fun x => is_checkpoint_dir x && !(is_tmp_checkpoint_dir x)))
        match sorted_dirnames.getLast? with
        | none => .notFound checkpoint_dir
        | some latest_checkpoint_dirname =>
          .restored (get_step_from_checkpoint_dirname latest_checkpoint_dirname)
      | some s =>
        let checkpoint_step_dir := make_checkpoint_step_dir checkpoint_dir s
        match fs checkpoint_step_dir with
        | none => .notFound checkpoint_step_dir
        | some l2 =>
          if l2.isEmpty then .notFound checkpoint_step_dir else .restored s

/-! ### GDA save (`_save_checkpoint_gda`, lines 286–378) -/

/-- Staleness reference of `_save_checkpoint_gda`: the last element of the
`sorted(...)` list of final (non-temp) checkpoint dirnames. -/
def gdaLatestFinal (listing : List String) : Option String :=
  (sortedStrings (listing.filter
    (fun x => is_checkpoint_dir x && !(is_tmp_checkpoint_dir x)))).getLast?

/-- Net effect on the base-directory listing of the write phase: `makedirs`
of the temp directory, per-leaf writes inside it, and `rename(tmp, final)`.
The temp name disappears (re-created then renamed away) and the final name
appears.  `tf.io.gfile.rename` failing when the target already exists is not
modelled (no claim depends on it). -/
def gdaWriteAndRename (cur : List String) (step : Nat) : List String :=
  cur.filter (fun x => x ≠ tmp_checkpoint_dirname step) ++ [checkpoint_step_dirname step]

structure GdaSaveOutcome where
  saved : Bool
  listing : List String
deriving DecidableEq

/-- `_save_checkpoint_gda`, as its effect on the base-directory listing (the
side effects are executed by process 0; `saved = false` is the logged
stale-save skip).  Mirrors the source order: one `listdir`, deletion of the
dirnames matching the temp regex, barrier, staleness check on the original
listing, then the write phase. -/
def save_checkpoint_gda_listing (listing : List String) (overwrite : Bool)
    (step : Nat) : GdaSaveOutcome :=
  if !overwrite then
    let afterDelete := listing.filter (fun x => !(is_tmp_checkpoint_dir x))
    match gdaLatestFinal listing with
    | some latest_checkpoint_dirname =>
      if step ≤ get_step_from_checkpoint_dirname latest_checkpoint_dirname then
        ⟨false, afterDelete⟩
      else ⟨true, gdaWriteAndRename afterDelete step⟩
    | none => ⟨true, gdaWriteAndRename afterDelete step⟩
  else ⟨true, gdaWriteAndRename listing step⟩

/-- Observable side effects of one process during `_save_checkpoint_gda`. -/
inductive SaveEvent where
  | deleteTmpDir (name : String)
  | barrier (tag : String)
  | makeTmpDir (name : String)
  | makeLeafDir (leaf : String)
  | writeLeaf (leaf : String)
  | renameDir (src dst : String)
deriving DecidableEq

/-- Staleness test of `_save_checkpoint_gda` (lines 326–335): some final
checkpoint directory is listed and the lexicographically greatest one parses
to a step at least the requested one. -/
def gda_save_is_stale (listing : List String) (step : Nat) : Bool :=
  match gdaLatestFinal listing with
  | some latest => step ≤ get_step_from_checkpoint_dirname latest
  | none => false

/-- Event trace of `_save_checkpoint_gda` as executed by the process with the
given `process_index`; `leafNames` are the flattened
`_extract_nested_prefix_names` results (one per leaf of the TrainState). -/
def save_checkpoint_gda_trace (process_index : Nat) (listing : List String)
    (overwrite : Bool) (step : Nat) (leafNames : List String) : List SaveEvent :=
  let pre : List SaveEvent :=
    if !overwrite then
      (if process_index = 0 then
        (listing.filter (fun x => is_tmp_checkpoint_dir x)).map .deleteTmpDir
      else []) ++ [.barrier "tmp dir deletions"]
    else []
  let skip : Bool := !overwrite && gda_save_is_stale listing step
  if skip then pre
  else
    pre
    ++ (if process_index = 0 then [.makeTmpDir (tmp_checkpoint_dirname step)] else [])
    ++ [.barrier "tmp dir creation"]
    ++ leafNames.map .makeLeafDir
    ++ leafNames.map .writeLeaf
    ++ [.barrier "chunk writes"]
    ++ (if process_index = 0 then
          [.renameDir (tmp_checkpoint_dirname step) (checkpoint_step_dirname step)]
        else [])

/-! ### Flax save path (`_save_checkpoint_flax`, lines 184–223) -/

/-- Characters after the last underscore: `s.rsplit(chr(95), 1)[-1]` (also
`s.split(chr(95))[-1]`), the way both `_save_checkpoint_flax` and the eval
loops read a step number back out of a checkpoint path. -/
def afterLastUnderscore (s : String) : List Char :=
  (s.data.reverse.takeWhile (fun c => c ≠ '_')).reverse

/-- Modelled from the spec: `flax.training.checkpoints.latest_checkpoint`
(the library behind `latest_checkpoint`, not under `src/`) — lists the base
directory, filters to final checkpoint entries, returns the lexicographically
greatest as a full path, or an absence value when there is none. -/
def latest_checkpoint_of (checkpoint_dir : String) (listing : List String) :
    Option String :=
  ((sortedStrings (listing.filter (fun x => is_checkpoint_dir x))).getLast?).map
    (pathJoin checkpoint_dir)

/-- Modelled from the spec: the directory effect of
`flax.training.checkpoints.save_checkpoint` (not under `src/`) — writes the
final entry for `step`, then retention deletes the oldest (lowest step) final
entries beyond `keep`. -/
def flax_save_checkpoint_effect (listing : List String) (step : Nat)
    (keep : Nat) : List String :=
  let withNew := listing ++ [checkpoint_step_dirname step]
  let finals := sortedStrings (withNew.filter (fun x => is_checkpoint_dir x))
  let doomed := finals.take (finals.length - keep)
  withNew.filter (fun x => !(doomed.contains x))

/-- `_save_checkpoint_flax`, as its effect on the base-directory listing: the
staleness check against `latest_checkpoint` is the repository's code; the
final write-plus-retention is the modelled flax library call above. -/
def save_checkpoint_flax_listing (checkpoint_dir : String)
    (listing : List String) (overwrite : Bool) (max_checkpoints : Nat)
    (step : Nat) : GdaSaveOutcome :=
  if !overwrite then
    match latest_checkpoint_of checkpoint_dir listing with
    | some previous_filename =>
      let previous_step := parseDigits (afterLastUnderscore previous_filename)
      if step ≤ previous_step then ⟨false, listing⟩
      else
        ⟨true, flax_save_checkpoint_effect listing step max_checkpoints⟩
    | none =>
      ⟨true, flax_save_checkpoint_effect listing step max_checkpoints⟩
  else
    ⟨true, flax_save_checkpoint_effect listing step max_checkpoints⟩

/-! ### Polling evaluation loop (`eval.py`) -/

/-- Step number the evaluation loop reads out of a checkpoint path:
`int(last_checkpoint.split(chr(95))[-1])`. -/
def eval_ckpt_step (path : String) : Nat := parseDigits (afterLastUnderscore path)

inductive EvalLoopOutcome where
  | exited
  | continued (newCheckpoint : Option String)
  | polling
deriving DecidableEq

/-- First poll result differing from `last`: models the inner
`while new_checkpoint == last_checkpoint: sleep(60); re-query` loop, `polls`
being the successive values `latest_checkpoint` returns.  `none` when every
poll of `polls` still equals `last` (the loop is still sleeping). -/
def pollForNewCheckpoint (last : Option String) :
    List (Option String) → Option (Option String)
  | [] => none
  | p :: rest => if p = last then pollForNewCheckpoint last rest else some p

/-- One iteration of the polling evaluation loop after the eval pass
(`evaluate_pmap_model`, `eval.py` lines 165–187; `evaluate_spmd_model` has
the identical control flow at lines 279–302): exit test on the last observed
checkpoint, else poll for a new one and continue with it restored. -/
def eval_loop_iteration (last_checkpoint : Option String)
    (save_interval_steps num_train_steps : Nat)
    (polls : List (Option String)) : EvalLoopOutcome :=
  match last_checkpoint with
  | some last =>
    if num_train_steps ≤ eval_ckpt_step last + save_interval_steps then .exited
    else
      match pollForNewCheckpoint last_checkpoint polls with
      | some nc => .continued nc
      | none => .polling
  | none =>
    match pollForNewCheckpoint last_checkpoint polls with
    | some nc => .continued nc
    | none => .polling

/-! ### Nested parameter trees (pytrees) and the structural key extractor -/

mutual
inductive PyTree where
  | leaf (v : Int)
  | node (children : PyEntries)
inductive PyEntries where
  | nil
  | cons (key : String) (t : PyTree) (rest : PyEntries)
end

def keysOf : PyEntries → List String
  | .nil => []
  | .cons k _ rest => k :: keysOf rest

mutual
/-- Leaves of a pytree in depth-first order (`jax.tree_flatten` leaf list). -/
def flattenLeaves : PyTree → List Int
  | PyTree.leaf v => [v]
  | PyTree.node cs => flattenLeavesEntries cs
def flattenLeavesEntries : PyEntries → List Int
  | PyEntries.nil => []
  | PyEntries.cons _ t rest => flattenLeaves t ++ flattenLeavesEntries rest
end

mutual
/-- Structural fingerprint of a pytree: a deterministic rendering of its
shape and keys, ignoring leaf values.  Models Python `str(pytree_state)` for
the treedef produced by `jax.tree_flatten` (the exact text jax prints is
richer, but only determinism in the structure matters here). -/
def treedefRepr : PyTree → String
  | PyTree.leaf _ => "*"
  | PyTree.node cs => "(" ++ treedefReprEntries cs ++ ")"
def treedefReprEntries : PyEntries → String
  | PyEntries.nil => ""
  | PyEntries.cons k t rest => k ++ ": " ++ treedefRepr t ++ "; " ++ treedefReprEntries rest
end

mutual
/-- `jax.tree_unflatten`: rebuilds a tree shaped like the template from a
flat leaf list, returning the rebuilt tree and the unconsumed leaves.  An
exhausted leaf list yields a `0` leaf (jax raises there; no claim exercises
it). -/
def unflattenTree : PyTree → List Int → PyTree × List Int
  | PyTree.leaf _, [] => (PyTree.leaf 0, [])
  | PyTree.leaf _, v :: rest => (PyTree.leaf v, rest)
  | PyTree.node cs, ls =>
    let r := unflattenEntries cs ls
    (PyTree.node r.1, r.2)
def unflattenEntries : PyEntries → List Int → PyEntries × List Int
  | PyEntries.nil, ls => (PyEntries.nil, ls)
  | PyEntries.cons k t rest, ls =>
    let r1 := unflattenTree t ls
    let r2 := unflattenEntries rest r1.2
    (PyEntries.cons k r1.1 r2.1, r2.2)
end

/-! ### Flax restore path (`_restore_checkpoint_flax`, lines 226–247) -/

structure FlaxCheckpointTarget where
  flattened_state : List Int
  str_pytree_state : String

/-- Error text of the structural-mismatch `ValueError` (both structure
descriptions appear in the message, restored first, current second). -/
def mismatchMessage (restored current : String) : String :=
  "Unable to restore checkpoint. A mismatch between the saved checkpoint " ++
    "structure and the current one has been detected (" ++ restored ++
    " vs " ++ current ++ ")."

/-- `_restore_checkpoint_flax`: the external
`flax.training.checkpoints.restore_checkpoint` read is abstracted as the
`restored_target` argument (the target dict read back from disk); the
fingerprint comparison and the unflatten are the repository's code. -/
def restore_checkpoint_flax (restored_target : FlaxCheckpointTarget)
    (train_state : PyTree) : Except String PyTree :=
  let str_pytree_state := treedefRepr train_state
  if restored_target.str_pytree_state ≠ str_pytree_state then
    .error (mismatchMessage restored_target.str_pytree_state str_pytree_state)
  else
    .ok (unflattenTree train_state restored_target.flattened_state).1

/-! ### Structural key extractor (`_extract_nested_prefix_names`) -/

mutual
/-- Modelled from the spec: `py_utils.extract_prefixed_keys_from_nested_map`
(not under `src/`) — produces, for every leaf, the concatenation of the
prefix and the leaf's nesting keys joined with the key separator `'.'`
(`_extract_nested_prefix_names` passes key separator `'.'`, left separator
`'_'` for positional collections — not modelled, string-keyed maps only —
and an empty right separator).  Returned here as the flattened depth-first
list of leaf addresses. -/
def extractPrefixedKeys (pre : String) : PyTree → List String
  | PyTree.leaf _ => [pre]
  | PyTree.node cs => extractPrefixedKeysEntries pre cs
def extractPrefixedKeysEntries (pre : String) : PyEntries → List String
  | PyEntries.nil => []
  | PyEntries.cons key t rest =>
    extractPrefixedKeys (pre ++ "." ++ key) t ++ extractPrefixedKeysEntries pre rest
end

/-- TrainState: the unit of checkpointing (`train_states.TrainState`). -/
structure TrainState where
  step : PyTree
  mdl_vars : PyTree
  opt_states : PyTree

/-- `_extract_nested_prefix_names` (lines 250–275), flattened: all leaf
addresses of a TrainState, branch prefixes `step`, `mdl_vars`,
`opt_states`. -/
def extract_nested_prefix_names (state : TrainState) : List String :=
  extractPrefixedKeys "step" state.step ++
    extractPrefixedKeys "mdl_vars" state.mdl_vars ++
    extractPrefixedKeys "opt_states" state.opt_states

mutual
/-- Key paths of the leaves of a pytree, depth-first. -/
def leafPaths : PyTree → List (List String)
  | PyTree.leaf _ => [[]]
  | PyTree.node cs => leafPathsEntries cs
def leafPathsEntries : PyEntries → List (List String)
  | PyEntries.nil => []
  | PyEntries.cons k t rest => (leafPaths t).map (fun p => k :: p) ++ leafPathsEntries rest
end

/-- All characters of `s` differ from the key separator `'.'`. -/
def dotFree (s : String) : Bool := s.data.all (fun c => c ≠ '.')

mutual
/-- Well-formedness of a parameter tree as a Python nested dict: the keys of
every node are distinct (dict keys), and no key contains the key separator. -/
def wfTree : PyTree → Bool
  | PyTree.leaf _ => true
  | PyTree.node cs => decide ((keysOf cs).Nodup) && wfEntries cs
def wfEntries : PyEntries → Bool
  | PyEntries.nil => true
  | PyEntries.cons k t rest => dotFree k && wfTree t && wfEntries rest
end

/-! ## Proof development

### Fixed-width decimal strings -/

/-- Proof-side canonical form: the `w` low decimal digits of `n`, most
significant first (the full decimal form of `n` when `n < 10 ^ w`). -/
def padDecimal : Nat → Nat → List Char
  | 0, _ => []
  | w + 1, n => digitChar (n / 10 ^ w) :: padDecimal w (n % 10 ^ w)

theorem length_padDecimal : ∀ w n, (padDecimal w n).length = w
  | 0, _ => rfl
  | w + 1, n => by simp [padDecimal, length_padDecimal w]

theorem digitChar_zero_eq : digitChar 0 = '0' := by decide

theorem padDecimal_succ : ∀ w n, n < 10 ^ (w + 1) →
    padDecimal (w + 1) n = padDecimal w (n / 10) ++ [digitChar (n % 10)]
  | 0, n, h => by
    have h10 : n < 10 := by simpa using h
    show digitChar (n / 10 ^ 0) :: padDecimal 0 (n % 10 ^ 0) = [] ++ [digitChar (n % 10)]
    simp [padDecimal, Nat.mod_eq_of_lt h10]
  | w + 1, n, _ => by
    have hm : n % 10 ^ (w + 1) < 10 ^ (w + 1) :=
      Nat.mod_lt _ (Nat.pow_pos (by norm_num))
    have ih := padDecimal_succ w (n % 10 ^ (w + 1)) hm
    have e1 : n / 10 / 10 ^ w = n / 10 ^ (w + 1) := by
      rw [Nat.div_div_eq_div_mul]
      congr 1
      ring
    have e2 : n % 10 ^ (w + 1) / 10 = n / 10 % 10 ^ w := by
      have h10 : (10 : Nat) * 10 ^ w = 10 ^ (w + 1) := by ring
      rw [← h10, Nat.mod_mul_right_div_self]
    have e3 : n % 10 ^ (w + 1) % 10 = n % 10 :=
      Nat.mod_mod_of_dvd n (dvd_pow_self 10 (Nat.succ_ne_zero w))
    show digitChar (n / 10 ^ (w + 1)) :: padDecimal (w + 1) (n % 10 ^ (w + 1)) =
      (digitChar (n / 10 / 10 ^ w) :: padDecimal w (n / 10 % 10 ^ w)) ++ [digitChar (n % 10)]
    rw [ih, e1, e2, e3]
    simp

theorem natDigitsAux_eq_padDecimal : ∀ k n acc fuel, 10 ^ k ≤ n → n < 10 ^ (k + 1) →
    k < fuel → natDigitsAux fuel n acc = padDecimal (k + 1) n ++ acc
  | 0, n, acc, fuel + 1, _, h2, _ => by
    have hn : n < 10 := by simpa using h2
    simp [natDigitsAux, hn, padDecimal]
  | k + 1, n, acc, fuel + 1, h1, h2, hf => by
    have h10 : ¬ n < 10 := by
      have : (10 : Nat) ≤ 10 ^ (k + 1) := by
        calc (10 : Nat) = 10 ^ 1 := (pow_one 10).symm
          _ ≤ 10 ^ (k + 1) := Nat.pow_le_pow_right (by norm_num) (by omega)
      omega
    have hd1 : 10 ^ k ≤ n / 10 := by
      rw [Nat.le_div_iff_mul_le (by norm_num)]
      calc 10 ^ k * 10 = 10 ^ (k + 1) := by ring
        _ ≤ n := h1
    have hd2 : n / 10 < 10 ^ (k + 1) := by
      rw [Nat.div_lt_iff_lt_mul (by norm_num)]
      calc n < 10 ^ (k + 2) := h2
        _ = 10 ^ (k + 1) * 10 := by ring
    have ih := natDigitsAux_eq_padDecimal k (n / 10) (digitChar (n % 10) :: acc) fuel
      hd1 hd2 (by omega)
    calc natDigitsAux (fuel + 1) n acc
        = natDigitsAux fuel (n / 10) (digitChar (n % 10) :: acc) := by
          simp [natDigitsAux, h10]
      _ = padDecimal (k + 1) (n / 10) ++ digitChar (n % 10) :: acc := ih
      _ = (padDecimal (k + 1) (n / 10) ++ [digitChar (n % 10)]) ++ acc := by simp
      _ = padDecimal (k + 1 + 1) n ++ acc := by rw [← padDecimal_succ (k + 1) n h2]

theorem natDecDigits_eq_padDecimal (k n : Nat) (h1 : 10 ^ k ≤ n) (h2 : n < 10 ^ (k + 1)) :
    natDecDigits n = padDecimal (k + 1) n := by
  have hk : k < n + 1 := by
    have : k < 10 ^ k := Nat.lt_pow_self (by norm_num) k
    omega
  simpa using natDigitsAux_eq_padDecimal k n [] (n + 1) h1 h2 hk

theorem padDecimal_leadingZeros : ∀ w k n, n < 10 ^ k →
    padDecimal (w + k) n = List.replicate w '0' ++ padDecimal k n
  | 0, _, _, _ => by simp
  | w + 1, k, n, h => by
    have hle : n < 10 ^ (w + k) :=
      Nat.lt_of_lt_of_le h (Nat.pow_le_pow_right (by norm_num) (by omega))
    have hdiv : n / 10 ^ (w + k) = 0 := Nat.div_eq_of_lt hle
    have hmod : n % 10 ^ (w + k) = n := Nat.mod_eq_of_lt hle
    have e : w + 1 + k = (w + k) + 1 := by omega
    calc padDecimal (w + 1 + k) n = padDecimal ((w + k) + 1) n := by rw [e]
      _ = digitChar (n / 10 ^ (w + k)) :: padDecimal (w + k) (n % 10 ^ (w + k)) := by
          simp [padDecimal]
      _ = '0' :: padDecimal (w + k) n := by
          rw [hdiv, hmod, digitChar_zero_eq]
      _ = '0' :: (List.replicate w '0' ++ padDecimal k n) := by
          rw [padDecimal_leadingZeros w k n h]
      _ = List.replicate (w + 1) '0' ++ padDecimal k n := by
          simp [List.replicate_succ]

theorem pyFormat08_eq_padDecimal (n : Nat) (h : n < 10 ^ 8) :
    pyFormat08 n = padDecimal 8 n := by
  rcases Nat.eq_zero_or_pos n with h0 | hpos
  · subst h0
    decide
  · set k := Nat.log 10 n with hk
    have h1 : 10 ^ k ≤ n := Nat.pow_log_le_self 10 (by omega)
    have h2 : n < 10 ^ (k + 1) := Nat.lt_pow_succ_log_self (by norm_num) n
    have hk7 : k + 1 ≤ 8 := by
      by_contra hc
      have : 10 ^ 8 ≤ 10 ^ k := Nat.pow_le_pow_right (by norm_num) (by omega)
      omega
    have hdig := natDecDigits_eq_padDecimal k n h1 h2
    have hlen : (natDecDigits n).length = k + 1 := by
      rw [hdig, length_padDecimal]
    have hsum : (8 - (k + 1)) + (k + 1) = 8 := by omega
    calc pyFormat08 n
        = List.replicate (8 - (k + 1)) '0' ++ padDecimal (k + 1) n := by
          rw [pyFormat08, hlen, hdig]
      _ = padDecimal ((8 - (k + 1)) + (k + 1)) n := by
          rw [padDecimal_leadingZeros (8 - (k + 1)) (k + 1) n h2]
      _ = padDecimal 8 n := by rw [hsum]

/-! ### Digit characters and parsing -/

theorem digit_lt_iff : ∀ a, a < 10 → ∀ b, b < 10 → (digitChar a < digitChar b ↔ a < b) := by
  decide

theorem digit_inj : ∀ a, a < 10 → ∀ b, b < 10 → digitChar a = digitChar b → a = b := by
  decide

theorem digit_isDigit : ∀ d, d < 10 → (digitChar d).isDigit = true := by decide

theorem digit_toNat : ∀ d, d < 10 → (digitChar d).toNat - 48 = d := by decide

theorem foldl_parse_padDecimal : ∀ k n a, n < 10 ^ k →
    (padDecimal k n).foldl (fun acc c => acc * 10 + (c.toNat - 48)) a = a * 10 ^ k + n
  | 0, n, a, h => by
    have : n = 0 := by omega
    simp [padDecimal, this]
  | k + 1, n, a, h => by
    have hq : n / 10 ^ k < 10 := by
      rw [Nat.div_lt_iff_lt_mul (Nat.pow_pos (by norm_num))]
      calc n < 10 ^ (k + 1) := h
        _ = 10 * 10 ^ k := by ring
    have hr : n % 10 ^ k < 10 ^ k := Nat.mod_lt _ (Nat.pow_pos (by norm_num))
    have ih := foldl_parse_padDecimal k (n % 10 ^ k)
      (a * 10 + ((digitChar (n / 10 ^ k)).toNat - 48)) hr
    have e : n = 10 ^ k * (n / 10 ^ k) + n % 10 ^ k := (Nat.div_add_mod n (10 ^ k)).symm
    calc (padDecimal (k + 1) n).foldl (fun acc c => acc * 10 + (c.toNat - 48)) a
        = (padDecimal k (n % 10 ^ k)).foldl (fun acc c => acc * 10 + (c.toNat - 48))
            (a * 10 + ((digitChar (n / 10 ^ k)).toNat - 48)) := rfl
      _ = (a * 10 + ((digitChar (n / 10 ^ k)).toNat - 48)) * 10 ^ k + n % 10 ^ k := ih
      _ = (a * 10 + n / 10 ^ k) * 10 ^ k + n % 10 ^ k := by
          rw [digit_toNat _ hq]
      _ = a * 10 ^ (k + 1) + n := by
          conv_rhs => rw [e]
          ring

theorem parseDigits_padDecimal (k n : Nat) (h : n < 10 ^ k) :
    parseDigits (padDecimal k n) = n := by
  have := foldl_parse_padDecimal k n 0 h
  simpa [parseDigits] using this

theorem padDecimal_all_digits : ∀ k n, n < 10 ^ k →
    ((padDecimal k n).all Char.isDigit) = true
  | 0, _, _ => rfl
  | k + 1, n, h => by
    have hq : n / 10 ^ k < 10 := by
      rw [Nat.div_lt_iff_lt_mul (Nat.pow_pos (by norm_num))]
      calc n < 10 ^ (k + 1) := h
        _ = 10 * 10 ^ k := by ring
    have hr : n % 10 ^ k < 10 ^ k := Nat.mod_lt _ (Nat.pow_pos (by norm_num))
    simp only [padDecimal, List.all_cons, Bool.and_eq_true]
    exact ⟨digit_isDigit _ hq, padDecimal_all_digits k (n % 10 ^ k) hr⟩

/-! ### Lexicographic order on digit strings -/

theorem div_lt_imp_lt (K x y : Nat) (h : x / K < y / K) : x < y := by
  by_contra hc
  push_neg at hc
  have h2 : y / K ≤ x / K := Nat.div_le_div_right hc
  omega

theorem lex_cons_inv {c d : Char} {l m : List Char}
    (h : List.Lex (· < ·) (c :: l) (d :: m)) :
    c < d ∨ (c = d ∧ List.Lex (· < ·) l m) := by
  cases h with
  | rel hr => exact Or.inl hr
  | cons ht => exact Or.inr ⟨rfl, ht⟩

theorem lex_append_left_iff (p l m : List Char) :
    List.Lex (· < ·) (p ++ l) (p ++ m) ↔ List.Lex (· < ·) l m := by
  induction p with
  | nil => simp
  | cons c cs ih =>
    constructor
    · intro h
      cases h with
      | cons h' => exact ih.mp h'
      | rel hr => exact absurd hr (lt_irrefl c)
    · intro h
      exact List.Lex.cons (ih.mpr h)

theorem padDecimal_lex_iff : ∀ k a b, a < 10 ^ k → b < 10 ^ k →
    (List.Lex (· < ·) (padDecimal k a) (padDecimal k b) ↔ a < b)
  | 0, a, b, ha, hb => by
    constructor
    · intro h
      cases h
    · intro h
      exact absurd h (by omega)
  | k + 1, a, b, ha, hb => by
    have Kpos : 0 < 10 ^ k := Nat.pow_pos (by norm_num)
    have hda : a / 10 ^ k < 10 := by
      rw [Nat.div_lt_iff_lt_mul Kpos]
      calc a < 10 ^ (k + 1) := ha
        _ = 10 * 10 ^ k := by ring
    have hdb : b / 10 ^ k < 10 := by
      rw [Nat.div_lt_iff_lt_mul Kpos]
      calc b < 10 ^ (k + 1) := hb
        _ = 10 * 10 ^ k := by ring
    have hra : a % 10 ^ k < 10 ^ k := Nat.mod_lt _ Kpos
    have hrb : b % 10 ^ k < 10 ^ k := Nat.mod_lt _ Kpos
    have e_a : 10 ^ k * (a / 10 ^ k) + a % 10 ^ k = a := Nat.div_add_mod a (10 ^ k)
    have e_b : 10 ^ k * (b / 10 ^ k) + b % 10 ^ k = b := Nat.div_add_mod b (10 ^ k)
    have ih := padDecimal_lex_iff k (a % 10 ^ k) (b % 10 ^ k) hra hrb
    show List.Lex (· < ·) (digitChar (a / 10 ^ k) :: padDecimal k (a % 10 ^ k))
      (digitChar (b / 10 ^ k) :: padDecimal k (b % 10 ^ k)) ↔ a < b
    constructor
    · intro h
      rcases lex_cons_inv h with hr | ⟨heq, htail⟩
      · exact div_lt_imp_lt (10 ^ k) a b ((digit_lt_iff _ hda _ hdb).mp hr)
      · have hd : a / 10 ^ k = b / 10 ^ k := digit_inj _ hda _ hdb heq
        have hlt := ih.mp htail
        calc a = 10 ^ k * (a / 10 ^ k) + a % 10 ^ k := e_a.symm
          _ < 10 ^ k * (a / 10 ^ k) + b % 10 ^ k := by omega
          _ = 10 ^ k * (b / 10 ^ k) + b % 10 ^ k := by rw [hd]
          _ = b := e_b
    · intro hab
      rcases lt_trichotomy (a / 10 ^ k) (b / 10 ^ k) with hlt | heq | hgt
      · exact List.Lex.rel ((digit_lt_iff _ hda _ hdb).mpr hlt)
      · have hmod : a % 10 ^ k < b % 10 ^ k := by
          have h1 : 10 ^ k * (a / 10 ^ k) + a % 10 ^ k <
              10 ^ k * (b / 10 ^ k) + b % 10 ^ k := by
            rw [e_a, e_b]; exact hab
          rw [heq] at h1
          omega
        rw [heq]
        exact List.Lex.cons (ih.mpr hmod)
      · exact absurd (div_lt_imp_lt (10 ^ k) b a hgt) (by omega)

/-! ### Canonical checkpoint names: data, order, parsing, classification -/

theorem checkpoint_step_dirname_data (a : Nat) (ha : a < 10 ^ 8) :
    (checkpoint_step_dirname a).data = "checkpoint_".data ++ padDecimal 8 a := by
  show (_CHECKPOINT_DIR_PREFIX ++ String.mk (pyFormat08 a)).data = _
  rw [String.data_append]
  show "checkpoint_".data ++ pyFormat08 a = _
  rw [pyFormat08_eq_padDecimal a ha]

theorem checkpoint_step_dirname_lex_iff (a b : Nat) (ha : a < 10 ^ 8) (hb : b < 10 ^ 8) :
    (checkpoint_step_dirname a < checkpoint_step_dirname b) ↔ a < b := by
  rw [String.lt_iff_toList_lt]
  show List.Lex (· < ·) (checkpoint_step_dirname a).data (checkpoint_step_dirname b).data ↔ _
  rw [checkpoint_step_dirname_data a ha, checkpoint_step_dirname_data b hb]
  exact (lex_append_left_iff _ _ _).trans (padDecimal_lex_iff 8 a b ha hb)

theorem checkpoint_step_dirname_inj (a b : Nat) (ha : a < 10 ^ 8) (hb : b < 10 ^ 8)
    (h : checkpoint_step_dirname a = checkpoint_step_dirname b) : a = b := by
  rcases lt_trichotomy a b with hlt | heq | hgt
  · have := (checkpoint_step_dirname_lex_iff a b ha hb).mpr hlt
    rw [h] at this
    exact absurd this (lt_irrefl _)
  · exact heq
  · have := (checkpoint_step_dirname_lex_iff b a hb ha).mpr hgt
    rw [h] at this
    exact absurd this (lt_irrefl _)

theorem checkpoint_step_dirname_le_iff (a b : Nat) (ha : a < 10 ^ 8) (hb : b < 10 ^ 8) :
    pyStrLe (checkpoint_step_dirname a) (checkpoint_step_dirname b) ↔ a ≤ b := by
  constructor
  · intro h
    by_contra hc
    push_neg at hc
    have hlex : (checkpoint_step_dirname b).data < (checkpoint_step_dirname a).data := by
      show List.Lex (· < ·) _ _
      rw [checkpoint_step_dirname_data b hb, checkpoint_step_dirname_data a ha]
      exact (lex_append_left_iff _ _ _).mpr ((padDecimal_lex_iff 8 b a hb ha).mpr hc)
    exact absurd hlex (not_lt.mpr (h : _ ≤ _))
  · intro h
    show (checkpoint_step_dirname a).data ≤ (checkpoint_step_dirname b).data
    refine not_lt.mp ?_
    intro hlex
    have hba : b < a := by
      have h2 : List.Lex (· < ·) (checkpoint_step_dirname b).data
          (checkpoint_step_dirname a).data := hlex
      rw [checkpoint_step_dirname_data b hb, checkpoint_step_dirname_data a ha] at h2
      exact (padDecimal_lex_iff 8 b a hb ha).mp ((lex_append_left_iff _ _ _).mp h2)
    omega

theorem make_checkpoint_step_dir_data (base : String) (a : Nat) (ha : a < 10 ^ 8) :
    (make_checkpoint_step_dir base a).data =
      base.data ++ ("/".data ++ ("checkpoint_".data ++ padDecimal 8 a)) := by
  show (base ++ "/" ++ checkpoint_step_dirname a).data = _
  simp [String.data_append, checkpoint_step_dirname_data a ha]

theorem make_checkpoint_step_dir_lex_iff (base : String) (a b : Nat)
    (ha : a < 10 ^ 8) (hb : b < 10 ^ 8) :
    (make_checkpoint_step_dir base a < make_checkpoint_step_dir base b) ↔ a < b := by
  rw [String.lt_iff_toList_lt]
  show List.Lex (· < ·) (make_checkpoint_step_dir base a).data
    (make_checkpoint_step_dir base b).data ↔ _
  rw [make_checkpoint_step_dir_data base a ha, make_checkpoint_step_dir_data base b hb]
  exact (lex_append_left_iff base.data _ _).trans
    ((lex_append_left_iff "/".data _ _).trans
      ((lex_append_left_iff "checkpoint_".data _ _).trans
        (padDecimal_lex_iff 8 a b ha hb)))

theorem stripLit_append (p r : List Char) : stripLit p (p ++ r) = some r := by
  induction p with
  | nil => rfl
  | cons c cs ih => simp [stripLit, ih]

theorem findSubIdx_none_of_head_notMem (c : Char) (ps l : List Char) (h : c ∉ l) :
    findSubIdx (c :: ps) l = none := by
  induction l with
  | nil => rfl
  | cons d ds ih =>
    have hcd : c ≠ d := fun e => h (e ▸ List.mem_cons_self d ds)
    have hpre : (c :: ps).isPrefixOf (d :: ds) = false := by
      simp [List.isPrefixOf, hcd]
    simp only [findSubIdx, hpre]
    rw [ih (fun hm => h (List.mem_cons_of_mem d hm))]
    rfl

theorem no_dot_in_checkpoint_dirname (a : Nat) (ha : a < 10 ^ 8) :
    '.' ∉ (checkpoint_step_dirname a).data := by
  rw [checkpoint_step_dirname_data a ha]
  intro hmem
  rcases List.mem_append.mp hmem with h | h
  · revert h
    decide
  · have hall := padDecimal_all_digits 8 a ha
    have := List.all_eq_true.mp hall _ h
    exact absurd this (by decide)

theorem get_step_roundtrip (a : Nat) (ha : a < 10 ^ 8) :
    get_step_from_checkpoint_dirname (checkpoint_step_dirname a) = a := by
  unfold get_step_from_checkpoint_dirname
  have hfind : findSubIdx _TMP_DIR_KEYWORD.data (checkpoint_step_dirname a).data = none := by
    show findSubIdx ('.' :: "tmp".data) (checkpoint_step_dirname a).data = none
    exact findSubIdx_none_of_head_notMem '.' _ _ (no_dot_in_checkpoint_dirname a ha)
  rw [hfind]
  show parseDigits ((checkpoint_step_dirname a).data.drop _CHECKPOINT_DIR_PREFIX.length) = a
  rw [checkpoint_step_dirname_data a ha]
  have hlen : _CHECKPOINT_DIR_PREFIX.length = ("checkpoint_".data).length := rfl
  rw [hlen, List.drop_left]
  exact parseDigits_padDecimal 8 a ha

theorem is_checkpoint_dir_canonical (a : Nat) (ha : a < 10 ^ 8) :
    is_checkpoint_dir (checkpoint_step_dirname a) = true := by
  unfold is_checkpoint_dir
  have hd := checkpoint_step_dirname_data a ha
  rw [show _CHECKPOINT_DIR_PREFIX.data = "checkpoint_".data from rfl, hd,
    stripLit_append]
  have hne : (padDecimal 8 a).isEmpty = false := by
    have := length_padDecimal 8 a
    cases hpd : padDecimal 8 a with
    | nil => rw [hpd] at this; simp at this
    | cons x xs => rfl
  simp [hne, padDecimal_all_digits 8 a ha,
    List.all_eq_true.mp (padDecimal_all_digits 8 a ha)]

theorem stripLit_t_none_of_digits (ps l : List Char)
    (hl : l.all Char.isDigit = true) : stripLit ('t' :: ps) l = none := by
  cases l with
  | nil => rfl
  | cons c cs =>
    have hc : c.isDigit = true := by
      simp only [List.all_cons, Bool.and_eq_true] at hl
      exact hl.1
    have hct : c ≠ 't' := fun e => absurd (e ▸ hc) (by decide)
    simp [stripLit, hct]

theorem tmpRegexTail_false_of_all_digits (l : List Char)
    (hl : l.all Char.isDigit = true) : tmpRegexTail l = false := by
  cases l with
  | nil => rfl
  | cons c rest =>
    have hrest : rest.all Char.isDigit = true := by
      simp only [List.all_cons, Bool.and_eq_true] at hl
      exact hl.2
    show (match stripLit "tmp_".data rest with
      | none => false
      | some ds => !ds.isEmpty && ds.all Char.isDigit) = false
    rw [show "tmp_".data = 't' :: "mp_".data from rfl,
      stripLit_t_none_of_digits _ rest hrest]

theorem digitsThen_false_of_all_digits (l : List Char)
    (hl : l.all Char.isDigit = true) : digitsThen tmpRegexTail l = false := by
  induction l with
  | nil => rfl
  | cons c rest ih =>
    have hrest : rest.all Char.isDigit = true := by
      simp only [List.all_cons, Bool.and_eq_true] at hl
      exact hl.2
    simp only [digitsThen, tmpRegexTail_false_of_all_digits rest hrest, ih hrest,
      Bool.or_false, Bool.and_false]

theorem is_tmp_checkpoint_dir_canonical (a : Nat) (ha : a < 10 ^ 8) :
    is_tmp_checkpoint_dir (checkpoint_step_dirname a) = false := by
  unfold is_tmp_checkpoint_dir
  rw [show _CHECKPOINT_DIR_PREFIX.data = "checkpoint_".data from rfl,
    checkpoint_step_dirname_data a ha, stripLit_append]
  exact digitsThen_false_of_all_digits _ (padDecimal_all_digits 8 a ha)

/-! ### Sorted listings -/

theorem sorted_rel_getLast {α : Type} {r : α → α → Prop} :
    ∀ l : List α, List.Sorted r l → ∀ m, l.getLast? = some m →
      ∀ x ∈ l, x = m ∨ r x m := by
  intro l
  induction l with
  | nil =>
    intro _ m hm
    simp at hm
  | cons a rest ih =>
    intro hs m hm x hx
    cases rest with
    | nil =>
      have ham : a = m := by simpa using hm
      have hxa : x = a := by simpa using hx
      exact Or.inl (hxa.trans ham)
    | cons b bs =>
      have hm2 : (b :: bs).getLast? = some m := by
        rw [← List.getLast?_cons_cons]
        exact hm
      have hrel := List.sorted_cons.mp hs
      rcases List.mem_cons.mp hx with hxa | hxr
      · subst hxa
        exact Or.inr (hrel.1 m (List.mem_of_mem_getLast? hm2))
      · exact ih hrel.2 m hm2 x hxr

theorem mem_and_le_of_sorted_last (l : List String) (m : String)
    (hm : (sortedStrings l).getLast? = some m) :
    m ∈ l ∧ ∀ x ∈ l, pyStrLe x m := by
  have hperm := List.perm_insertionSort pyStrLe l
  have hsort : List.Sorted pyStrLe (sortedStrings l) :=
    List.sorted_insertionSort pyStrLe l
  have hmem : m ∈ l := hperm.mem_iff.mp (List.mem_of_mem_getLast? hm)
  refine ⟨hmem, ?_⟩
  intro x hx
  have hx2 : x ∈ sortedStrings l := hperm.mem_iff.mpr hx
  rcases sorted_rel_getLast (sortedStrings l) hsort m hm x hx2 with he | hr
  · subst he
    exact le_rfl
  · exact hr

theorem sortedStrings_eq_nil_iff (l : List String) : sortedStrings l = [] ↔ l = [] := by
  have hperm : (sortedStrings l).Perm l := List.perm_insertionSort pyStrLe l
  constructor
  · intro h
    rw [h] at hperm
    exact hperm.symm.eq_nil
  · intro h
    subst h
    rfl

/-! ## Claim theorems -/

/-- C1 (code_bug evidence): at base directory `/ckpt` and step `100` the
saver's temp directory is `/ckpt/checkpoint_00000100.tmp` — the final-dir
name suffixed with the bare temp marker and NO disambiguating `_<suffix>` —
and the temp-directory classifier `_is_tmp_checkpoint_dir` does NOT
recognise its name (while the name also fails the final-dir classifier), so
the next saver's stale-temp garbage collection never finds it; the claim's
pattern `checkpoint_<8-digit-step>.tmp_<suffix>` (which the classifier does
accept, witness `checkpoint_00000100.tmp_3`) is not what the code
produces. -/
theorem C1_tmp_dir_name_escapes_classifier :
    make_tmp_checkpoint_dir "/ckpt" 100 = "/ckpt/checkpoint_00000100.tmp" ∧
    tmp_checkpoint_dirname 100 = "checkpoint_00000100.tmp" ∧
    is_tmp_checkpoint_dir (tmp_checkpoint_dirname 100) = false ∧
    is_checkpoint_dir (tmp_checkpoint_dirname 100) = false ∧
    is_tmp_checkpoint_dir "checkpoint_00000100.tmp_3" = true := by
  decide

/-- C9: for steps `a, b < 10 ^ 8` the final checkpoint directory name for `a`
is lexicographically below the one for `b` (Python string order, i.e.
code-point lexicographic) exactly when `a < b`: the 8-digit zero padding
makes lexicographic order coincide with numeric order on that range. -/
theorem C9_step_dir_lex_iff_lt (base : String) (a b : Nat)
    (ha : a < 10 ^ 8) (hb : b < 10 ^ 8) :
    (make_checkpoint_step_dir base a < make_checkpoint_step_dir base b) ↔ a < b :=
  make_checkpoint_step_dir_lex_iff base a b ha hb

/-- C9 witness: instantiation at base `/ckpt`, steps `0` and `1`. -/
theorem C9_step_dir_lex_iff_lt_witness :
    (0 : Nat) < 10 ^ 8 ∧ (1 : Nat) < 10 ^ 8 ∧
    ((make_checkpoint_step_dir "/ckpt" 0 < make_checkpoint_step_dir "/ckpt" 1) ↔ 0 < 1) :=
  ⟨by norm_num, by norm_num,
    C9_step_dir_lex_iff_lt "/ckpt" 0 1 (by norm_num) (by norm_num)⟩

/-- C2 counterexample: restoring the latest checkpoint from a base directory
that does not exist does NOT raise a not-found error — `_restore_checkpoint_gda`
logs and returns the passed-in train state (first guard, lines 388–393). -/
theorem C2_counterexample_absent_base_returns_input :
    restore_checkpoint_gda (fun _ => none) "/ckpt" none = RestoreResult.returnedInput ∧
    RestoreResult.returnedInput ≠ RestoreResult.notFound "/ckpt" :=
  ⟨rfl, by decide⟩

/-- C2 amended: when the base directory exists and is nonempty, restore fails
with a not-found error if (step omitted) no final checkpoint directory is
listed, or (explicit step) that step's final directory is absent or empty;
but when the base directory is absent or has an empty listing, restore
returns the input train state unchanged instead of raising. -/
theorem C2_restore_not_found (fs : Fs) (checkpoint_dir : String)
    (listing : List String) (hbase : fs checkpoint_dir = some listing)
    (hne : listing ≠ []) :
    (listing.filter (fun x => is_checkpoint_dir x && !(is_tmp_checkpoint_dir x)) = [] →
      restore_checkpoint_gda fs checkpoint_dir none =
        RestoreResult.notFound checkpoint_dir) ∧
    (∀ s, fs (make_checkpoint_step_dir checkpoint_dir s) = none →
      restore_checkpoint_gda fs checkpoint_dir (some s) =
        RestoreResult.notFound (make_checkpoint_step_dir checkpoint_dir s)) ∧
    (∀ s, fs (make_checkpoint_step_dir checkpoint_dir s) = some [] →
      restore_checkpoint_gda fs checkpoint_dir (some s) =
        RestoreResult.notFound (make_checkpoint_step_dir checkpoint_dir s)) ∧
    (∀ (fs2 : Fs) (dir2 : String) (st : Option Nat), fs2 dir2 = none →
      restore_checkpoint_gda fs2 dir2 st = RestoreResult.returnedInput) ∧
    (∀ (fs2 : Fs) (dir2 : String) (st : Option Nat), fs2 dir2 = some [] →
      restore_checkpoint_gda fs2 dir2 st = RestoreResult.returnedInput) := by
  have hempty : listing.isEmpty = false := by
    cases listing with
    | nil => exact absurd rfl hne
    | cons a l => rfl
  refine ⟨?_, ?_, ?_, ?_, ?_⟩
  · intro hf
    simp only [restore_checkpoint_gda, hbase, hempty]
    rw [hf]
    rfl
  · intro s hs
    simp only [restore_checkpoint_gda, hbase, hempty, hs]
    rfl
  · intro s hs
    simp only [restore_checkpoint_gda, hbase, hempty, hs]
    rfl
  · intro fs2 dir2 st h2
    simp only [restore_checkpoint_gda, h2]
  · intro fs2 dir2 st h2
    simp only [restore_checkpoint_gda, h2]
    rfl

/-- C2 witness: concrete filesystem exercising the amended theorem — base
`/ckpt` exists with one stray (non-checkpoint) entry, step 7's directory is
absent. -/
theorem C2_restore_not_found_witness :
    restore_checkpoint_gda
        (fun p => if p = "/ckpt" then some ["junk"] else none) "/ckpt" none =
      RestoreResult.notFound "/ckpt" ∧
    restore_checkpoint_gda
        (fun p => if p = "/ckpt" then some ["junk"] else none) "/ckpt" (some 7) =
      RestoreResult.notFound (make_checkpoint_step_dir "/ckpt" 7) := by
  have h := C2_restore_not_found
    (fun p => if p = "/ckpt" then some ["junk"] else none) "/ckpt" ["junk"]
    (by decide) (by decide)
  exact ⟨h.1 (by decide), h.2.1 7 (by decide)⟩

/-- C3 counterexample: on the sharded (GDA) save path, after saving steps
`1000, …, 11000` (11 saves, `overwrite = False`) into an empty base
directory, all 11 final checkpoint directories remain — `max_checkpoints` is
ignored (`_save_checkpoint_gda` deletes its `max_checkpoints` argument,
docstring: "Unsupported") — so step 1000's directory is NOT gone. -/
theorem C3_counterexample_gda_keeps_all :
    [1000, 2000, 3000, 4000, 5000, 6000, 7000, 8000, 9000, 10000, 11000].foldl
        (fun l s => (save_checkpoint_gda_listing l false s).listing) [] =
      ["checkpoint_00001000", "checkpoint_00002000", "checkpoint_00003000",
       "checkpoint_00004000", "checkpoint_00005000", "checkpoint_00006000",
       "checkpoint_00007000", "checkpoint_00008000", "checkpoint_00009000",
       "checkpoint_00010000", "checkpoint_00011000"] := by
  decide

/-- C3 amended: retention holds on the flax path (where the repository passes
`keep = max_checkpoints` to the flax saver, modelled from the spec): after the
11 saves with `max_checkpoints = 10`, exactly the 10 highest-numbered final
directories remain and step 1000's is gone.  On the GDA path
`max_checkpoints` is ignored (documented "Unsupported"), no pruning occurs,
and all 11 directories remain. -/
theorem C3_flax_retention_gda_none :
    ([1000, 2000, 3000, 4000, 5000, 6000, 7000, 8000, 9000, 10000, 11000].foldl
        (fun l s => (save_checkpoint_flax_listing "/ckpt" l false 10 s).listing) [] =
      ["checkpoint_00002000", "checkpoint_00003000", "checkpoint_00004000",
       "checkpoint_00005000", "checkpoint_00006000", "checkpoint_00007000",
       "checkpoint_00008000", "checkpoint_00009000", "checkpoint_00010000",
       "checkpoint_00011000"]) ∧
    ([1000, 2000, 3000, 4000, 5000, 6000, 7000, 8000, 9000, 10000, 11000].foldl
        (fun l s => (save_checkpoint_gda_listing l false s).listing) []).length = 11 := by
  constructor
  · decide
  · decide

theorem getLast?_none_iff {α : Type} (l : List α) : l.getLast? = none ↔ l = [] := by
  cases l with
  | nil => simp
  | cons a t => simp

/-- C4 counterexample: base listing
`[checkpoint_123456789, checkpoint_99999999, checkpoint_00000005.tmp_7]`,
requested step `10^8`, `overwrite = False`.  The numerically highest existing
final checkpoint step is `123456789 ≥ 10^8`, so the claim demands a skip with
no directory created and every directory unchanged; but the GDA saver picks
the lexicographically greatest dirname `checkpoint_99999999` (lex and numeric
order part ways beyond 8 digits), finds `99999999 < 10^8`, and proceeds:
it deletes the temp directory and creates `checkpoint_100000000`. -/
theorem C4_counterexample_not_skipped :
    is_checkpoint_dir "checkpoint_123456789" = true ∧
    get_step_from_checkpoint_dirname "checkpoint_123456789" = 123456789 ∧
    (100000000 : Nat) ≤ 123456789 ∧
    save_checkpoint_gda_listing
        ["checkpoint_123456789", "checkpoint_99999999", "checkpoint_00000005.tmp_7"]
        false 100000000 =
      ⟨true, ["checkpoint_123456789", "checkpoint_99999999",
                    "checkpoint_100000000"]⟩ := by
  decide

/-- C4 amended: with `overwrite = False`, when every final checkpoint
directory has the canonical 8-digit zero-padded name (step below `10^8`) and
some final directory's step is at least the requested step (equivalently,
the numerically highest is), the save is skipped and returns normally:
`saved = false`, no temp or final directory is created, and every final
checkpoint directory is left unchanged — but on the GDA path the stale-temp
garbage collection has already deleted every directory matching the temp
pattern before the staleness check, so the resulting listing is the input
minus those temp entries, not the input itself.  On the flax path a stale
save changes nothing at all. -/
theorem C4_stale_save_skipped :
    (∀ (listing : List String) (step : Nat),
      (∀ x ∈ listing, is_checkpoint_dir x = true →
        ∃ s, s < 10 ^ 8 ∧ x = checkpoint_step_dirname s) →
      (∃ x, x ∈ listing ∧ is_checkpoint_dir x = true ∧
        step ≤ get_step_from_checkpoint_dirname x) →
      save_checkpoint_gda_listing listing false step =
        ⟨false, listing.filter (fun x => !(is_tmp_checkpoint_dir x))⟩) ∧
    (∀ (checkpoint_dir : String) (listing : List String)
      (max_checkpoints step : Nat) (prev : String),
      latest_checkpoint_of checkpoint_dir listing = some prev →
      step ≤ parseDigits (afterLastUnderscore prev) →
      save_checkpoint_flax_listing checkpoint_dir listing false max_checkpoints step =
        ⟨false, listing⟩) := by
  constructor
  · intro listing step hcanon hex
    obtain ⟨x0, hx0mem, hx0ck, hx0le⟩ := hex
    obtain ⟨s0, hs0lt, hx0eq⟩ := hcanon x0 hx0mem hx0ck
    have hx0f : x0 ∈ listing.filter
        (fun x => is_checkpoint_dir x && !(is_tmp_checkpoint_dir x)) := by
      refine List.mem_filter.mpr ⟨hx0mem, ?_⟩
      rw [hx0eq]
      simp [is_checkpoint_dir_canonical s0 hs0lt, is_tmp_checkpoint_dir_canonical s0 hs0lt]
    cases hm : (sortedStrings (listing.filter
        (fun x => is_checkpoint_dir x && !(is_tmp_checkpoint_dir x)))).getLast? with
    | none =>
      have hnil := (sortedStrings_eq_nil_iff _).mp ((getLast?_none_iff _).mp hm)
      rw [hnil] at hx0f
      exact absurd hx0f (List.not_mem_nil x0)
    | some m =>
      obtain ⟨hmmem, hmax⟩ := mem_and_le_of_sorted_last _ m hm
      have hmparts := List.mem_filter.mp hmmem
      have hmck : is_checkpoint_dir m = true := by
        have h2 := hmparts.2
        simp only [Bool.and_eq_true] at h2
        exact h2.1
      obtain ⟨sm, hsmlt, hmeq⟩ := hcanon m hmparts.1 hmck
      have hle : pyStrLe x0 m := hmax x0 hx0f
      have hs0sm : s0 ≤ sm := by
        rw [hx0eq, hmeq] at hle
        exact (checkpoint_step_dirname_le_iff s0 sm hs0lt hsmlt).mp hle
      have hstep : step ≤ get_step_from_checkpoint_dirname m := by
        rw [hmeq, get_step_roundtrip sm hsmlt]
        rw [hx0eq, get_step_roundtrip s0 hs0lt] at hx0le
        omega
      have hred : save_checkpoint_gda_listing listing false step =
          match gdaLatestFinal listing with
          | some latest =>
            if step ≤ get_step_from_checkpoint_dirname latest then
              ⟨false, listing.filter (fun x => !(is_tmp_checkpoint_dir x))⟩
            else
              ⟨true, gdaWriteAndRename
                  (listing.filter (fun x => !(is_tmp_checkpoint_dir x))) step⟩
          | none =>
            ⟨true, gdaWriteAndRename
                (listing.filter (fun x => !(is_tmp_checkpoint_dir x))) step⟩ := rfl
      have hm2 : gdaLatestFinal listing = some m := hm
      rw [hred, hm2]
      show (if step ≤ get_step_from_checkpoint_dirname m then _ else _) = _
      rw [if_pos hstep]
  · intro checkpoint_dir listing max_checkpoints step prev hlatest hstep
    have hred : save_checkpoint_flax_listing checkpoint_dir listing false max_checkpoints step =
        match latest_checkpoint_of checkpoint_dir listing with
        | some previous_filename =>
          if step ≤ parseDigits (afterLastUnderscore previous_filename) then
            ⟨false, listing⟩
          else
            ⟨true, flax_save_checkpoint_effect listing step max_checkpoints⟩
        | none =>
          ⟨true, flax_save_checkpoint_effect listing step max_checkpoints⟩ := rfl
    rw [hred, hlatest]
    show (if step ≤ parseDigits (afterLastUnderscore prev) then _ else _) = _
    rw [if_pos hstep]

/-- C4 witness: one final checkpoint at step 10, stale request for step 5, on
both paths. -/
theorem C4_stale_save_skipped_witness :
    save_checkpoint_gda_listing ["checkpoint_00000010"] false 5 =
      ⟨false, ["checkpoint_00000010"]⟩ ∧
    save_checkpoint_flax_listing "/ckpt" ["checkpoint_00000010"] false 10 5 =
      ⟨false, ["checkpoint_00000010"]⟩ := by
  have h := C4_stale_save_skipped
  constructor
  · have h1 := h.1 ["checkpoint_00000010"] 5
      (by
        intro x hx hck
        have hx1 : x = "checkpoint_00000010" := by simpa using hx
        exact ⟨10, by norm_num, by rw [hx1]; decide⟩)
      ⟨"checkpoint_00000010", by decide, by decide, by decide⟩
    exact h1.trans (by decide)
  · exact h.2 "/ckpt" ["checkpoint_00000010"] 10 5
      (pathJoin "/ckpt" "checkpoint_00000010") (by decide) (by decide)

/-! ### Barrier traces (C5, C8) -/
def isBarrierEvent : SaveEvent → Bool
  | SaveEvent.barrier _ => true
  | _ => false

theorem filter_barrier_deleteTmp (l : List String) :
    ((l.map SaveEvent.deleteTmpDir).filter isBarrierEvent) = [] := by
  induction l with
  | nil => rfl
  | cons a t ih => simp [isBarrierEvent, ih]

theorem filter_barrier_makeLeafDir (l : List String) :
    ((l.map SaveEvent.makeLeafDir).filter isBarrierEvent) = [] := by
  induction l with
  | nil => rfl
  | cons a t ih => simp [isBarrierEvent, ih]

theorem filter_barrier_writeLeaf (l : List String) :
    ((l.map SaveEvent.writeLeaf).filter isBarrierEvent) = [] := by
  induction l with
  | nil => rfl
  | cons a t ih => simp [isBarrierEvent, ih]

/-- Trace shape of a non-overwrite save whose staleness test is negative
(a save that reaches the write phase). -/
theorem gda_trace_write_phase (p : Nat) (listing : List String) (step : Nat)
    (leafNames : List String) (h : gda_save_is_stale listing step = false) :
    save_checkpoint_gda_trace p listing false step leafNames =
      (if p = 0 then
        (listing.filter (fun x => is_tmp_checkpoint_dir x)).map SaveEvent.deleteTmpDir
      else []) ++ [SaveEvent.barrier "tmp dir deletions"] ++
      (if p = 0 then [SaveEvent.makeTmpDir (tmp_checkpoint_dirname step)] else []) ++
      [SaveEvent.barrier "tmp dir creation"] ++
      leafNames.map SaveEvent.makeLeafDir ++
      leafNames.map SaveEvent.writeLeaf ++
      [SaveEvent.barrier "chunk writes"] ++
      (if p = 0 then
        [SaveEvent.renameDir (tmp_checkpoint_dirname step) (checkpoint_step_dirname step)]
      else []) := by
  unfold save_checkpoint_gda_trace
  rw [h]
  rfl

/-- Trace shape of a non-overwrite save whose staleness test is positive
(the skip branch, reached after the first barrier). -/
theorem gda_trace_stale (p : Nat) (listing : List String) (step : Nat)
    (leafNames : List String) (h : gda_save_is_stale listing step = true) :
    save_checkpoint_gda_trace p listing false step leafNames =
      (if p = 0 then
        (listing.filter (fun x => is_tmp_checkpoint_dir x)).map SaveEvent.deleteTmpDir
      else []) ++ [SaveEvent.barrier "tmp dir deletions"] := by
  unfold save_checkpoint_gda_trace
  rw [h]
  rfl

/-- Trace shape of an overwrite save: the whole stale-temp-deletion phase
(including its barrier) is skipped. -/
theorem gda_trace_overwrite (p : Nat) (listing : List String) (step : Nat)
    (leafNames : List String) :
    save_checkpoint_gda_trace p listing true step leafNames =
      [] ++
      (if p = 0 then [SaveEvent.makeTmpDir (tmp_checkpoint_dirname step)] else []) ++
      [SaveEvent.barrier "tmp dir creation"] ++
      leafNames.map SaveEvent.makeLeafDir ++
      leafNames.map SaveEvent.writeLeaf ++
      [SaveEvent.barrier "chunk writes"] ++
      (if p = 0 then
        [SaveEvent.renameDir (tmp_checkpoint_dirname step) (checkpoint_step_dirname step)]
      else []) := rfl

theorem gda_trace_write_phase_barriers (p : Nat) (listing : List String) (step : Nat)
    (leafNames : List String) (h : gda_save_is_stale listing step = false) :
    (save_checkpoint_gda_trace p listing false step leafNames).filter isBarrierEvent =
      [SaveEvent.barrier "tmp dir deletions", SaveEvent.barrier "tmp dir creation",
       SaveEvent.barrier "chunk writes"] := by
  rw [gda_trace_write_phase p listing step leafNames h]
  by_cases hp : p = 0 <;>
    simp [hp, List.filter_append, filter_barrier_deleteTmp,
      filter_barrier_makeLeafDir, filter_barrier_writeLeaf, isBarrierEvent]

/-- C5 counterexample: a save with `overwrite = True` that reaches the write
phase (it writes the leaf) executes only TWO barriers — the
stale-temp-deletion phase together with its barrier sits inside the
`if not overwrite` block and is skipped entirely. -/
theorem C5_counterexample_overwrite_two_barriers :
    ((save_checkpoint_gda_trace 0 [] true 1 ["step"]).filter isBarrierEvent).length = 2 ∧
    SaveEvent.writeLeaf "step" ∈ save_checkpoint_gda_trace 0 [] true 1 ["step"] := by
  decide

/-- C5 amended: every GDA save with `overwrite = False` that reaches the
write phase (staleness test negative) executes exactly three barriers, in
order: one after stale-temp deletion and before temp-dir creation, one after
temp-dir creation and before any shard write, one after all shard writes and
before the rename.  A save with `overwrite = True` skips the deletion phase
and its barrier and executes only the last two. -/
theorem C5_three_barriers_no_overwrite (process_index : Nat) (listing : List String)
    (step : Nat) (leafNames : List String)
    (h : gda_save_is_stale listing step = false) :
    ∃ delSeg createSeg writeSeg renameSeg,
      save_checkpoint_gda_trace process_index listing false step leafNames =
        delSeg ++ [SaveEvent.barrier "tmp dir deletions"] ++ createSeg ++
          [SaveEvent.barrier "tmp dir creation"] ++ writeSeg ++
          [SaveEvent.barrier "chunk writes"] ++ renameSeg ∧
      ((save_checkpoint_gda_trace process_index listing false step leafNames).filter
        isBarrierEvent).length = 3 ∧
      (∀ e ∈ delSeg, ∃ n, e = SaveEvent.deleteTmpDir n) ∧
      (∀ e ∈ createSeg, ∃ n, e = SaveEvent.makeTmpDir n) ∧
      (∀ e ∈ writeSeg,
        (∃ n, e = SaveEvent.makeLeafDir n) ∨ (∃ n, e = SaveEvent.writeLeaf n)) ∧
      (∀ e ∈ renameSeg, ∃ src dst, e = SaveEvent.renameDir src dst) := by
  refine ⟨if process_index = 0 then
      (listing.filter (fun x => is_tmp_checkpoint_dir x)).map SaveEvent.deleteTmpDir
    else [],
    if process_index = 0 then
      [SaveEvent.makeTmpDir (tmp_checkpoint_dirname step)] else [],
    leafNames.map SaveEvent.makeLeafDir ++ leafNames.map SaveEvent.writeLeaf,
    if process_index = 0 then
      [SaveEvent.renameDir (tmp_checkpoint_dirname step)
        (checkpoint_step_dirname step)] else [],
    ?_, ?_, ?_, ?_, ?_, ?_⟩
  · rw [gda_trace_write_phase process_index listing step leafNames h]
    simp [List.append_assoc]
  · rw [gda_trace_write_phase_barriers process_index listing step leafNames h]
    rfl
  · by_cases hp : process_index = 0
    · simp only [hp, if_pos]
      intro e he
      obtain ⟨n, _, hn⟩ := List.mem_map.mp he
      exact ⟨n, hn.symm⟩
    · simp [hp]
  · by_cases hp : process_index = 0 <;> simp [hp]
  · intro e he
    rcases List.mem_append.mp he with h1 | h1
    · obtain ⟨n, _, hn⟩ := List.mem_map.mp h1
      exact Or.inl ⟨n, hn.symm⟩
    · obtain ⟨n, _, hn⟩ := List.mem_map.mp h1
      exact Or.inr ⟨n, hn.symm⟩
  · by_cases hp : process_index = 0 <;> simp [hp]

/-- C5 witness: a fresh base directory, step 1, a single leaf, process 0. -/
theorem C5_three_barriers_no_overwrite_witness :
    gda_save_is_stale [] 1 = false ∧
    ((save_checkpoint_gda_trace 0 [] false 1 ["step"]).filter isBarrierEvent).length = 3 := by
  refine ⟨by decide, ?_⟩
  obtain ⟨_, _, _, _, _, hcount, _⟩ :=
    C5_three_barriers_no_overwrite 0 [] 1 ["step"] (by decide)
  exact hcount

/-- C8 counterexample: a process with rank 1 DOES perform directory creation
during the write phase — `_mkdir_path` (creating the per-leaf directories
inside the temp dir) runs on every process, not only rank 0 (`executor.map`
over the leaf names, lines 351–354, is not rank-guarded). -/
theorem C8_counterexample_nonzero_rank_creates_dirs :
    SaveEvent.makeLeafDir "step" ∈ save_checkpoint_gda_trace 1 [] false 1 ["step"] := by
  decide

/-- C8 amended: a nonzero-rank process performs none of the checkpoint-level
directory mutations — no stale-temp deletion, no temp-dir creation, no
rename (those are rank-0-only) — though it does create the per-leaf
subdirectories inside the temp dir; and every process executes exactly the
same barrier sequence as rank 0. -/
theorem C8_nonzero_rank_no_step_dir_mutation (process_index : Nat)
    (hp : process_index ≠ 0) (listing : List String) (overwrite : Bool)
    (step : Nat) (leafNames : List String) :
    (∀ e ∈ save_checkpoint_gda_trace process_index listing overwrite step leafNames,
      (∀ n, e ≠ SaveEvent.deleteTmpDir n) ∧ (∀ n, e ≠ SaveEvent.makeTmpDir n) ∧
      (∀ src dst, e ≠ SaveEvent.renameDir src dst)) ∧
    (save_checkpoint_gda_trace process_index listing overwrite step leafNames).filter
        isBarrierEvent =
      (save_checkpoint_gda_trace 0 listing overwrite step leafNames).filter
        isBarrierEvent := by
  constructor
  · intro e he
    cases overwrite with
    | true =>
      rw [gda_trace_overwrite process_index listing step leafNames, if_neg hp,
        if_neg hp] at he
      simp only [List.nil_append, List.append_nil, List.mem_append,
        List.mem_singleton, List.mem_map] at he
      rcases he with (((he | he) | he) | he)
      · subst he
        exact ⟨fun n => by simp, fun n => by simp, fun s d => by simp⟩
      · obtain ⟨n, _, hn⟩ := he
        subst hn
        exact ⟨fun n => by simp, fun n => by simp, fun s d => by simp⟩
      · obtain ⟨n, _, hn⟩ := he
        subst hn
        exact ⟨fun n => by simp, fun n => by simp, fun s d => by simp⟩
      · subst he
        exact ⟨fun n => by simp, fun n => by simp, fun s d => by simp⟩
    | false =>
      cases hst : gda_save_is_stale listing step with
      | true =>
        rw [gda_trace_stale process_index listing step leafNames hst, if_neg hp] at he
        simp only [List.nil_append, List.mem_singleton] at he
        subst he
        exact ⟨fun n => by simp, fun n => by simp, fun s d => by simp⟩
      | false =>
        rw [gda_trace_write_phase process_index listing step leafNames hst, if_neg hp,
          if_neg hp, if_neg hp] at he
        simp only [List.nil_append, List.append_nil, List.mem_append,
          List.mem_singleton, List.mem_map] at he
        rcases he with ((((he | he) | he) | he) | he)
        · subst he
          exact ⟨fun n => by simp, fun n => by simp, fun s d => by simp⟩
        · subst he
          exact ⟨fun n => by simp, fun n => by simp, fun s d => by simp⟩
        · obtain ⟨n, _, hn⟩ := he
          subst hn
          exact ⟨fun n => by simp, fun n => by simp, fun s d => by simp⟩
        · obtain ⟨n, _, hn⟩ := he
          subst hn
          exact ⟨fun n => by simp, fun n => by simp, fun s d => by simp⟩
        · subst he
          exact ⟨fun n => by simp, fun n => by simp, fun s d => by simp⟩
  · cases overwrite with
    | true =>
      rw [gda_trace_overwrite process_index listing step leafNames,
        gda_trace_overwrite 0 listing step leafNames]
      by_cases hq : process_index = 0
      · exact absurd hq hp
      · simp [hq, List.filter_append, filter_barrier_makeLeafDir,
          filter_barrier_writeLeaf, isBarrierEvent]
    | false =>
      cases hst : gda_save_is_stale listing step with
      | true =>
        rw [gda_trace_stale process_index listing step leafNames hst,
          gda_trace_stale 0 listing step leafNames hst]
        by_cases hq : process_index = 0
        · exact absurd hq hp
        · simp [hq, List.filter_append, filter_barrier_deleteTmp, isBarrierEvent]
      | false =>
        rw [gda_trace_write_phase_barriers process_index listing step leafNames hst,
          gda_trace_write_phase_barriers 0 listing step leafNames hst]

/-- C8 witness: rank 1, one stale temp entry in the listing, one leaf. -/
theorem C8_nonzero_rank_no_step_dir_mutation_witness :
    (∀ e ∈ save_checkpoint_gda_trace 1 ["checkpoint_00000001.tmp_2"] false 3 ["step"],
      (∀ n, e ≠ SaveEvent.deleteTmpDir n) ∧ (∀ n, e ≠ SaveEvent.makeTmpDir n) ∧
      (∀ src dst, e ≠ SaveEvent.renameDir src dst)) ∧
    (save_checkpoint_gda_trace 1 ["checkpoint_00000001.tmp_2"] false 3 ["step"]).filter
        isBarrierEvent =
      (save_checkpoint_gda_trace 0 ["checkpoint_00000001.tmp_2"] false 3 ["step"]).filter
        isBarrierEvent :=
  C8_nonzero_rank_no_step_dir_mutation 1 (by decide) ["checkpoint_00000001.tmp_2"]
    false 3 ["step"]

/-- C10: the polling evaluation loop exits after an eval pass exactly when a
latest checkpoint has been observed (`last_checkpoint` not `None`) and its
step plus `save_interval_steps` reaches `num_train_steps`; otherwise it polls
`latest_checkpoint` (sleeping between unchanged polls) and continues with the
first result that differs from the last observed one.  In particular, with
`last_checkpoint = None` the termination test is never evaluated and the
iteration cannot exit. -/
theorem C10_eval_loop_exit_iff (last_checkpoint : Option String)
    (save_interval_steps num_train_steps : Nat) (polls : List (Option String)) :
    (eval_loop_iteration last_checkpoint save_interval_steps num_train_steps polls =
        EvalLoopOutcome.exited ↔
      ∃ p, last_checkpoint = some p ∧
        num_train_steps ≤ eval_ckpt_step p + save_interval_steps) ∧
    (∀ nc, eval_loop_iteration last_checkpoint save_interval_steps num_train_steps polls =
        EvalLoopOutcome.continued nc ↔
      (¬ ∃ p, last_checkpoint = some p ∧
        num_train_steps ≤ eval_ckpt_step p + save_interval_steps) ∧
      pollForNewCheckpoint last_checkpoint polls = some nc) := by
  cases last_checkpoint with
  | none =>
    constructor
    · show (match pollForNewCheckpoint none polls with
        | some nc => EvalLoopOutcome.continued nc
        | none => EvalLoopOutcome.polling) = EvalLoopOutcome.exited ↔ _
      cases hpoll : pollForNewCheckpoint none polls with
      | none => simp
      | some nc => simp
    · intro nc
      show (match pollForNewCheckpoint none polls with
        | some nc => EvalLoopOutcome.continued nc
        | none => EvalLoopOutcome.polling) = EvalLoopOutcome.continued nc ↔ _
      cases hpoll : pollForNewCheckpoint none polls with
      | none => simp
      | some nc2 => simp
  | some last =>
    by_cases hterm : num_train_steps ≤ eval_ckpt_step last + save_interval_steps
    · constructor
      · show (if num_train_steps ≤ eval_ckpt_step last + save_interval_steps then
            EvalLoopOutcome.exited
          else match pollForNewCheckpoint (some last) polls with
            | some nc => EvalLoopOutcome.continued nc
            | none => EvalLoopOutcome.polling) = EvalLoopOutcome.exited ↔ _
        rw [if_pos hterm]
        simp [hterm]
      · intro nc
        show (if num_train_steps ≤ eval_ckpt_step last + save_interval_steps then
            EvalLoopOutcome.exited
          else match pollForNewCheckpoint (some last) polls with
            | some nc => EvalLoopOutcome.continued nc
            | none => EvalLoopOutcome.polling) = EvalLoopOutcome.continued nc ↔ _
        rw [if_pos hterm]
        simp [hterm]
    · constructor
      · show (if num_train_steps ≤ eval_ckpt_step last + save_interval_steps then
            EvalLoopOutcome.exited
          else match pollForNewCheckpoint (some last) polls with
            | some nc => EvalLoopOutcome.continued nc
            | none => EvalLoopOutcome.polling) = EvalLoopOutcome.exited ↔ _
        rw [if_neg hterm]
        cases hpoll : pollForNewCheckpoint (some last) polls with
        | none => simp [hterm]
        | some nc => simp [hterm]
      · intro nc
        show (if num_train_steps ≤ eval_ckpt_step last + save_interval_steps then
            EvalLoopOutcome.exited
          else match pollForNewCheckpoint (some last) polls with
            | some nc => EvalLoopOutcome.continued nc
            | none => EvalLoopOutcome.polling) = EvalLoopOutcome.continued nc ↔ _
        rw [if_neg hterm]
        cases hpoll : pollForNewCheckpoint (some last) polls with
        | none => simp [hterm]
        | some nc2 => simp [hterm, hpoll]

/-- C10 witness: a loop that observed `checkpoint_100`, with save interval
100 and 200 total train steps, exits; one that never observed a checkpoint
continues with the first poll result. -/
theorem C10_eval_loop_exit_iff_witness :
    eval_loop_iteration (some "/logs/checkpoints/checkpoint_100") 100 200 [] =
      EvalLoopOutcome.exited ∧
    eval_loop_iteration none 100 200 [some "/logs/checkpoints/checkpoint_1"] =
      EvalLoopOutcome.continued (some "/logs/checkpoints/checkpoint_1") := by
  constructor
  · exact (C10_eval_loop_exit_iff (some "/logs/checkpoints/checkpoint_100") 100 200 []).1.mpr
      ⟨"/logs/checkpoints/checkpoint_100", rfl, by decide⟩
  · exact ((C10_eval_loop_exit_iff none 100 200
      [some "/logs/checkpoints/checkpoint_1"]).2 (some "/logs/checkpoints/checkpoint_1")).mpr
      ⟨by simp, by decide⟩

/-- C6: the non-sharded (flax) restore raises the structural-mismatch error,
whose message carries both structure fingerprints (the restored one and the
requesting one), exactly when the stored `str_pytree_state` differs from the
fingerprint of the requesting TrainState structure; when they agree it
returns the restored leaves unflattened into the requested structure. -/
theorem C6_flax_restore_mismatch_iff (restored_target : FlaxCheckpointTarget)
    (train_state : PyTree) :
    ((∃ msg, restore_checkpoint_flax restored_target train_state = Except.error msg) ↔
      restored_target.str_pytree_state ≠ treedefRepr train_state) ∧
    (∀ msg, restore_checkpoint_flax restored_target train_state = Except.error msg →
      ∃ s1 s2 s3, msg = s1 ++ restored_target.str_pytree_state ++ s2 ++
        treedefRepr train_state ++ s3) ∧
    (restored_target.str_pytree_state = treedefRepr train_state →
      restore_checkpoint_flax restored_target train_state =
        Except.ok (unflattenTree train_state restored_target.flattened_state).1) := by
  have hred : restore_checkpoint_flax restored_target train_state =
      if restored_target.str_pytree_state ≠ treedefRepr train_state then
        Except.error (mismatchMessage restored_target.str_pytree_state
          (treedefRepr train_state))
      else Except.ok (unflattenTree train_state restored_target.flattened_state).1 := rfl
  by_cases heq : restored_target.str_pytree_state = treedefRepr train_state
  · rw [hred, if_neg (not_not.mpr heq)]
    refine ⟨?_, ?_, fun _ => rfl⟩
    · constructor
      · intro ⟨msg, hmsg⟩
        exact absurd hmsg (by simp)
      · intro hne
        exact absurd heq hne
    · intro msg hmsg
      exact absurd hmsg (by simp)
  · rw [hred, if_pos heq]
    refine ⟨?_, ?_, fun h => absurd h heq⟩
    · exact ⟨fun _ => heq, fun _ => ⟨_, rfl⟩⟩
    · intro msg hmsg
      have hm : mismatchMessage restored_target.str_pytree_state
          (treedefRepr train_state) = msg := by
        injection hmsg
      refine ⟨"Unable to restore checkpoint. A mismatch between the saved checkpoint " ++
        "structure and the current one has been detected (", " vs ", ").", ?_⟩
      rw [← hm]
      rfl

/-- C6 witness: a stored fingerprint `(a: *; )` restored against a
single-leaf TrainState (fingerprint `*`) errors with both fingerprints in
the message; the matching fingerprint restores the stored leaf. -/
theorem C6_flax_restore_mismatch_iff_witness :
    (∃ msg, restore_checkpoint_flax ⟨[5], "(a: *; )"⟩ (PyTree.leaf 0) =
      Except.error msg) ∧
    restore_checkpoint_flax ⟨[5], "*"⟩ (PyTree.leaf 0) =
      Except.ok (PyTree.leaf 5) := by
  constructor
  · exact (C6_flax_restore_mismatch_iff ⟨[5], "(a: *; )"⟩ (PyTree.leaf 0)).1.mpr
      (by decide)
  · have h := (C6_flax_restore_mismatch_iff ⟨[5], "*"⟩ (PyTree.leaf 0)).2.2 (by decide)
    exact h.trans rfl

/-! ### Leaf addresses: join, injectivity, distinctness (C7) -/

/-- Address of the leaf at key path `p` under prefix `pre`: the separator
`'.'`-joined concatenation the extractor computes step by step. -/
def joinDotPath (pre : String) (p : List String) : String :=
  p.foldl (fun a k => a ++ "." ++ k) pre

theorem intercalate_cons₂ {α : Type} (s a b : List α) (L : List (List α)) :
    List.intercalate s (a :: b :: L) = a ++ s ++ List.intercalate s (b :: L) := by
  simp [List.intercalate, List.append_assoc]

theorem intercalate_single {α : Type} (s a : List α) :
    List.intercalate s [a] = a := by
  simp [List.intercalate]

mutual
theorem extract_eq_map_paths (pre : String) : ∀ t : PyTree,
    extractPrefixedKeys pre t = (leafPaths t).map (joinDotPath pre)
  | PyTree.leaf _ => rfl
  | PyTree.node cs => extract_eq_map_paths_entries pre cs
theorem extract_eq_map_paths_entries (pre : String) : ∀ cs : PyEntries,
    extractPrefixedKeysEntries pre cs = (leafPathsEntries cs).map (joinDotPath pre)
  | PyEntries.nil => rfl
  | PyEntries.cons k t rest => by
    show extractPrefixedKeys (pre ++ "." ++ k) t ++ extractPrefixedKeysEntries pre rest =
      ((leafPaths t).map (fun p => k :: p) ++ leafPathsEntries rest).map (joinDotPath pre)
    rw [List.map_append, List.map_map, extract_eq_map_paths (pre ++ "." ++ k) t,
      extract_eq_map_paths_entries pre rest]
    have hfe : (joinDotPath pre ∘ fun p => k :: p) = joinDotPath (pre ++ "." ++ k) :=
      funext fun p => rfl
    rw [hfe]
end

theorem joinDotPath_data (p : List String) : ∀ pre : String,
    (joinDotPath pre p).data = List.intercalate ['.'] ((pre :: p).map String.data) := by
  induction p with
  | nil =>
    intro pre
    show pre.data = List.intercalate ['.'] [pre.data]
    rw [intercalate_single]
  | cons k rest ih =>
    intro pre
    have hd : (pre ++ "." ++ k).data = pre.data ++ ['.'] ++ k.data := by
      rw [String.data_append, String.data_append]
    show (joinDotPath (pre ++ "." ++ k) rest).data = _
    rw [ih (pre ++ "." ++ k), List.map_cons, List.map_cons, List.map_cons, hd]
    cases hr : rest.map String.data with
    | nil =>
      rw [intercalate_single, intercalate_cons₂, intercalate_single]
    | cons y L =>
      rw [intercalate_cons₂, intercalate_cons₂, intercalate_cons₂]
      simp [List.append_assoc]

theorem dotFree_notMem (s : String) (h : dotFree s = true) : '.' ∉ s.data := by
  intro hm
  have h2 := List.all_eq_true.mp h '.' hm
  simp at h2

theorem joinDot_inj_full (pre1 pre2 : String) (p q : List String)
    (h1 : dotFree pre1 = true) (h2 : dotFree pre2 = true)
    (hp : ∀ k ∈ p, dotFree k = true) (hq : ∀ k ∈ q, dotFree k = true)
    (h : joinDotPath pre1 p = joinDotPath pre2 q) : pre1 = pre2 ∧ p = q := by
  have hd := congrArg String.data h
  rw [joinDotPath_data p pre1, joinDotPath_data q pre2] at hd
  have c1 : ∀ l ∈ (pre1 :: p).map String.data, '.' ∉ l := by
    intro l hl
    obtain ⟨s, hs2, he⟩ := List.mem_map.mp hl
    subst he
    apply dotFree_notMem
    rcases List.mem_cons.mp hs2 with hcase | hcase
    · subst hcase
      exact h1
    · exact hp s hcase
  have c2 : ∀ l ∈ (pre2 :: q).map String.data, '.' ∉ l := by
    intro l hl
    obtain ⟨s, hs2, he⟩ := List.mem_map.mp hl
    subst he
    apply dotFree_notMem
    rcases List.mem_cons.mp hs2 with hcase | hcase
    · subst hcase
      exact h2
    · exact hq s hcase
  have hs := congrArg (fun l => List.splitOn '.' l) hd
  simp only at hs
  rw [List.splitOn_intercalate ((pre1 :: p).map String.data) '.' c1 (by simp),
    List.splitOn_intercalate ((pre2 :: q).map String.data) '.' c2 (by simp)] at hs
  have hinj : Function.Injective String.data := fun _ _ hh => String.ext hh
  have hcons := List.map_injective_iff.mpr hinj hs
  rw [List.cons.injEq] at hcons
  exact hcons

theorem leafPathsEntries_shape : ∀ cs : PyEntries, ∀ p ∈ leafPathsEntries cs,
    ∃ k, k ∈ keysOf cs ∧ ∃ p', p = k :: p'
  | PyEntries.nil, p, hp => absurd hp (List.not_mem_nil p)
  | PyEntries.cons k t rest, p, hp => by
    rcases List.mem_append.mp hp with h | h
    · obtain ⟨p', _, hpe⟩ := List.mem_map.mp h
      exact ⟨k, List.mem_cons_self k _, p', hpe.symm⟩
    · obtain ⟨k', hk', p', hpe⟩ := leafPathsEntries_shape rest p h
      exact ⟨k', List.mem_cons_of_mem k hk', p', hpe⟩

mutual
theorem leafPaths_nodup : ∀ t : PyTree, wfTree t = true → (leafPaths t).Nodup
  | PyTree.leaf _, _ => by
    show ([[]] : List (List String)).Nodup
    simp
  | PyTree.node cs, h => by
    have h2 : (keysOf cs).Nodup ∧ wfEntries cs = true := by
      simpa [wfTree, Bool.and_eq_true, decide_eq_true_eq] using h
    exact leafPathsEntries_nodup cs h2.1 h2.2
theorem leafPathsEntries_nodup : ∀ cs : PyEntries, (keysOf cs).Nodup →
    wfEntries cs = true → (leafPathsEntries cs).Nodup
  | PyEntries.nil, _, _ => List.nodup_nil
  | PyEntries.cons k t rest, hk, hwf => by
    have h3 : dotFree k = true ∧ wfTree t = true ∧ wfEntries rest = true := by
      simpa [wfEntries, Bool.and_eq_true, and_assoc] using hwf
    have hkk : k ∉ keysOf rest ∧ (keysOf rest).Nodup := List.nodup_cons.mp hk
    show ((leafPaths t).map (fun p => k :: p) ++ leafPathsEntries rest).Nodup
    refine List.Nodup.append ?_ ?_ ?_
    · refine List.Nodup.map_on ?_ (leafPaths_nodup t h3.2.1)
      intro x _ y _ he
      simpa using he
    · exact leafPathsEntries_nodup rest hkk.2 h3.2.2
    · intro p hp1 hp2
      obtain ⟨p', _, hpe⟩ := List.mem_map.mp hp1
      obtain ⟨k', hk', p'', hpe2⟩ := leafPathsEntries_shape rest p hp2
      rw [← hpe] at hpe2
      have hke : k = k' := (List.cons.injEq k p' k' p'').mp hpe2 |>.1
      exact hkk.1 (hke ▸ hk')
end

mutual
theorem leafPaths_dotFree : ∀ t : PyTree, wfTree t = true →
    ∀ p ∈ leafPaths t, ∀ k ∈ p, dotFree k = true
  | PyTree.leaf _, _, p, hp, k, hk => by
    have hpe : p = [] := by simpa [leafPaths] using hp
    subst hpe
    exact absurd hk (List.not_mem_nil k)
  | PyTree.node cs, h, p, hp, k, hk => by
    have h2 : (keysOf cs).Nodup ∧ wfEntries cs = true := by
      simpa [wfTree, Bool.and_eq_true, decide_eq_true_eq] using h
    exact leafPathsEntries_dotFree cs h2.2 p hp k hk
theorem leafPathsEntries_dotFree : ∀ cs : PyEntries, wfEntries cs = true →
    ∀ p ∈ leafPathsEntries cs, ∀ k ∈ p, dotFree k = true
  | PyEntries.nil, _, p, hp, _, _ => absurd hp (List.not_mem_nil p)
  | PyEntries.cons k0 t rest, hwf, p, hp, k, hk => by
    have h3 : dotFree k0 = true ∧ wfTree t = true ∧ wfEntries rest = true := by
      simpa [wfEntries, Bool.and_eq_true, and_assoc] using hwf
    rcases List.mem_append.mp hp with hcase | hcase
    · obtain ⟨p', hp', hpe⟩ := List.mem_map.mp hcase
      rw [← hpe] at hk
      rcases List.mem_cons.mp hk with hke | hke
      · subst hke
        exact h3.1
      · exact leafPaths_dotFree t h3.2.1 p' hp' k hke
    · exact leafPathsEntries_dotFree rest h3.2.2 p hcase k hk
end

theorem extract_nodup (pre : String) (hpre : dotFree pre = true) (t : PyTree)
    (hwf : wfTree t = true) : (extractPrefixedKeys pre t).Nodup := by
  rw [extract_eq_map_paths pre t]
  refine List.Nodup.map_on ?_ (leafPaths_nodup t hwf)
  intro p hp q hq he
  exact (joinDot_inj_full pre pre p q hpre hpre
    (leafPaths_dotFree t hwf p hp) (leafPaths_dotFree t hwf q hq) he).2

theorem extract_disjoint (pre1 pre2 : String) (h1 : dotFree pre1 = true)
    (h2 : dotFree pre2 = true) (hne : pre1 ≠ pre2) (t1 t2 : PyTree)
    (hw1 : wfTree t1 = true) (hw2 : wfTree t2 = true) :
    List.Disjoint (extractPrefixedKeys pre1 t1) (extractPrefixedKeys pre2 t2) := by
  intro a ha1 ha2
  rw [extract_eq_map_paths pre1 t1] at ha1
  rw [extract_eq_map_paths pre2 t2] at ha2
  obtain ⟨p, hp, hpe⟩ := List.mem_map.mp ha1
  obtain ⟨q, hq, hqe⟩ := List.mem_map.mp ha2
  have he : joinDotPath pre1 p = joinDotPath pre2 q := by rw [hpe, hqe]
  exact hne (joinDot_inj_full pre1 pre2 p q h1 h2
    (leafPaths_dotFree t1 hw1 p hp) (leafPaths_dotFree t2 hw2 q hq) he).1

/-- C7 counterexample: in a single TrainState whose `mdl_vars` contains both
the nested entry `a ↦ (b ↦ leaf)` and the sibling key `a.b` (a key containing
the separator), two DIFFERENT leaves (key paths `[a, b]` and `[a.b]`) map to
the SAME address `mdl_vars.a.b` — the extractor is not injective on leaves in
general. -/
theorem C7_counterexample_collision :
    extractPrefixedKeys "mdl_vars"
        (PyTree.node (PyEntries.cons "a"
          (PyTree.node (PyEntries.cons "b" (PyTree.leaf 1) PyEntries.nil))
          (PyEntries.cons "a.b" (PyTree.leaf 2) PyEntries.nil))) =
      ["mdl_vars.a.b", "mdl_vars.a.b"] ∧
    leafPaths
        (PyTree.node (PyEntries.cons "a"
          (PyTree.node (PyEntries.cons "b" (PyTree.leaf 1) PyEntries.nil))
          (PyEntries.cons "a.b" (PyTree.leaf 2) PyEntries.nil))) =
      [["a", "b"], ["a.b"]] ∧
    ¬ (["mdl_vars.a.b", "mdl_vars.a.b"] : List String).Nodup := by
  refine ⟨rfl, rfl, by decide⟩

/-- C7 amended: the structural key extractor is injective on the leaves of a
TrainState whenever every node's keys are distinct and no key contains the
key separator `'.'` (the well-formedness a Python nested dict of
separator-free keys gives): all leaf addresses are pairwise distinct.  In
particular the claim's example trees collide nowhere: `{a: {b: _}}` yields
`mdl_vars.a.b` while `{a_b: _}` yields `mdl_vars.a_b`, which differ. -/
theorem C7_extractor_injective (state : TrainState)
    (h1 : wfTree state.step = true) (h2 : wfTree state.mdl_vars = true)
    (h3 : wfTree state.opt_states = true) :
    (extract_nested_prefix_names state).Nodup ∧
    extractPrefixedKeys "mdl_vars"
        (PyTree.node (PyEntries.cons "a"
          (PyTree.node (PyEntries.cons "b" (PyTree.leaf 1) PyEntries.nil))
          PyEntries.nil)) = ["mdl_vars.a.b"] ∧
    extractPrefixedKeys "mdl_vars"
        (PyTree.node (PyEntries.cons "a_b" (PyTree.leaf 1) PyEntries.nil)) =
      ["mdl_vars.a_b"] ∧
    ("mdl_vars.a.b" : String) ≠ "mdl_vars.a_b" := by
  refine ⟨?_, rfl, rfl, by decide⟩
  show (extractPrefixedKeys "step" state.step ++
    extractPrefixedKeys "mdl_vars" state.mdl_vars ++
    extractPrefixedKeys "opt_states" state.opt_states).Nodup
  have dstep : dotFree "step" = true := by decide
  have dmdl : dotFree "mdl_vars" = true := by decide
  have dopt : dotFree "opt_states" = true := by decide
  refine List.Nodup.append (List.Nodup.append ?_ ?_ ?_) ?_ ?_
  · exact extract_nodup "step" dstep state.step h1
  · exact extract_nodup "mdl_vars" dmdl state.mdl_vars h2
  · exact extract_disjoint "step" "mdl_vars" dstep dmdl (by decide) _ _ h1 h2
  · exact extract_nodup "opt_states" dopt state.opt_states h3
  · rw [List.disjoint_append_left]
    exact ⟨extract_disjoint "step" "opt_states" dstep dopt (by decide) _ _ h1 h3,
      extract_disjoint "mdl_vars" "opt_states" dmdl dopt (by decide) _ _ h2 h3⟩

/-- C7 witness: a small well-formed TrainState — `step` a leaf, `mdl_vars`
the nested `{a: {b: _}}`, `opt_states` a two-key node. -/
theorem C7_extractor_injective_witness :
    (extract_nested_prefix_names
      ⟨PyTree.leaf 0,
       PyTree.node (PyEntries.cons "a"
         (PyTree.node (PyEntries.cons "b" (PyTree.leaf 1) PyEntries.nil))
         PyEntries.nil),
       PyTree.node (PyEntries.cons "m" (PyTree.leaf 2)
         (PyEntries.cons "v" (PyTree.leaf 3) PyEntries.nil))⟩).Nodup :=
  (C7_extractor_injective
    ⟨PyTree.leaf 0,
     PyTree.node (PyEntries.cons "a"
       (PyTree.node (PyEntries.cons "b" (PyTree.leaf 1) PyEntries.nil))
       PyEntries.nil),
     PyTree.node (PyEntries.cons "m" (PyTree.leaf 2)
       (PyEntries.cons "v" (PyTree.leaf 3) PyEntries.nil))⟩
    (by decide) (by decide) (by decide)).1

end LingvoJax
